import Mathlib

/-!
Shallow embedding of the text-flow layout engine of the cocktails repository
(`notecard/geometry.py` and `notecard/textbox.py`).

Coordinates are modelled as rationals: the Python code mixes `int` geometry
with the `float` factor `line_height` (default `1.0`), and layout arithmetic
is plain `+`, `-`, `*`, `>` comparisons, which ℚ reproduces exactly for the
dyadic values that actually occur.

The pygame font handle is modelled as an identifier together with a pure
metrics function from the handle's *current mutable style state* and a string
to a `(width, height)` pair — `font.size` in pygame depends on the style
flags previously set with `set_bold` / `set_italic` / `set_underline`, so the
style state of every font handle is threaded through the layout as part of
the layout state.  Drawing (`font.render` + `screen.blit`) is modelled as
appending a `DrawOp` record to the layout state's op list.

`OverflowError` (raised by `Text.render`, caught by `TextBox.render`) is
modelled by returning the state at the raise point together with a `Bool`
flag, `true` meaning the exception was raised; the `IndexError` that
`TextBox.render` would hit on `self.texts[-1]` for an empty box with
`height == 0` is modelled by returning `none`.
-/

namespace Notecard

/-- Models `geometry.Point`: an x/y coordinate pair. -/
structure Point where
  x : ℚ
  y : ℚ
deriving DecidableEq, Repr

/-- Models `geometry.Rectangle`: a top-left corner plus width and height. -/
structure Rectangle where
  top_left : Point
  width : ℚ
  height : ℚ
deriving DecidableEq, Repr

/-- Models the `Rectangle.bottom_right` property. -/
def Rectangle.bottom_right (r : Rectangle) : Point :=
  ⟨r.top_left.x + r.width, r.top_left.y + r.height⟩

/-- Models the `Rectangle.left` property. -/
def Rectangle.left (r : Rectangle) : ℚ := r.top_left.x

/-- Models the `Rectangle.right` property. -/
def Rectangle.right (r : Rectangle) : ℚ := r.bottom_right.x

/-- Models the `Rectangle.top` property. -/
def Rectangle.top (r : Rectangle) : ℚ := r.top_left.y

/-- Models the `Rectangle.bottom` property. -/
def Rectangle.bottom (r : Rectangle) : ℚ := r.bottom_right.y

/-- Models the mutable bold/italic/underline style state of a pygame font
handle (set with `set_bold`, `set_italic`, `set_underline`). -/
structure Style where
  bold : Bool
  italic : Bool
  underline : Bool
deriving DecidableEq, Repr

/-- The style state of a freshly created pygame font: no flags set. -/
def Style.plain : Style := ⟨false, false, false⟩

/-- An RGB colour triple, as used by `colors.BLACK` etc. -/
abbrev Color := ℕ × ℕ × ℕ

/-- Models `colors.BLACK`, the default `Text.color`. -/
def black : Color := (0, 0, 0)

/-- Models a pygame font handle: an identity (Python compares handles by
object identity) plus the pure metrics behind `font.size`, which depend on
the handle's current style state. -/
structure Font where
  id : ℕ
  sizeFn : Style → String → ℚ × ℚ

/-- Current style state of font handle `fid` in the association list
`styles`; a handle never touched is in its fresh (plain) state. -/
def styleOf (styles : List (ℕ × Style)) (fid : ℕ) : Style :=
  match styles with
  | [] => Style.plain
  | (f, st) :: rest => if f = fid then st else styleOf rest fid

/-- Record the style state of font handle `fid` after `set_bold` /
`set_italic` / `set_underline` calls. -/
def setStyle (styles : List (ℕ × Style)) (fid : ℕ) (st : Style) :
    List (ℕ × Style) :=
  (fid, st) :: styles

/-- One `font.render` + `screen.blit` pair: the text drawn, the style state
of the font at the draw, the antialias argument, the colour, and the
position blitted to. -/
structure DrawOp where
  text : String
  style : Style
  antialias : Bool
  color : Color
  pos : Point
deriving DecidableEq, Repr

/-- The mutable state threaded through layout: the cursor, the style state
of every font handle, and the list of draw operations issued so far. -/
structure LayoutState where
  cursor : Point
  styles : List (ℕ × Style)
  ops : List DrawOp
deriving DecidableEq, Repr

/-- The newline character. -/
def newlineChar : Char := Char.ofNat 0x0a

/-- Models `str.split(sep)` for a single-character separator, on the
character list of the string. -/
def splitChar (c : Char) : List Char → List (List Char)
  | [] => [[]]
  | a :: rest =>
    match splitChar c rest with
    | [] => [[]]
    | l :: ls => if a = c then [] :: l :: ls else (a :: l) :: ls

/-- Models `self.text.split('\n')` in `Text.render`. -/
def splitLines (s : String) : List String :=
  (splitChar newlineChar s.data).map fun l => ⟨l⟩

/-- Models `line.split(' ')` in `Text.render`. -/
def splitWords (s : String) : List String :=
  (splitChar ' ' s.data).map fun l => ⟨l⟩

/-- Models `textbox.Text`: one styled segment of a text box. -/
structure Text where
  text : String
  font : Font
  color : Color := black
  italic : Bool := false
  bold : Bool := false
  underline : Bool := false

/-- Models the nested `newline(offset)` function of `Text.render`:
`cursor.x = bounds.left + offset; cursor.y += space_height * line_height`. -/
def newline (bounds : Rectangle) (space_height line_height offset : ℚ)
    (s : LayoutState) : LayoutState :=
  { s with cursor := ⟨bounds.left + offset, s.cursor.y + space_height * line_height⟩ }

/-- The wrap test of `Text.render`: with
`available_width = bounds.width - (cursor.x - bounds.left)`, the code wraps
when `width > available_width`. -/
def wrapsQ (bounds : Rectangle) (x width : ℚ) : Bool :=
  width > bounds.width - (x - bounds.left)

/-- One iteration of the inner word loop of `Text.render`: measure the word
with the font's current style state, wrap if it exceeds the available width,
raise `OverflowError` (flag `true`) if the vertical bound is hit, otherwise
set the segment's style on the font, draw the word, advance the cursor, and
draw a trailing space unless this is the last word of the line. -/
def renderWord (t : Text) (bounds : Rectangle)
    (line_height indent space_width space_height : ℚ) (word : String)
    (lastWord : Bool) (s : LayoutState) : LayoutState × Bool :=
  let width := (t.font.sizeFn (styleOf s.styles t.font.id) word).1
  let s1 := if wrapsQ bounds s.cursor.x width then
      newline bounds space_height line_height indent s
    else s
  if bounds.height > 0 ∧ s1.cursor.y + space_height ≥ bounds.bottom then
    (s1, true)
  else
    let st : Style := ⟨t.bold, t.italic, t.underline⟩
    let styles2 := setStyle s1.styles t.font.id st
    let ops2 := s1.ops ++ [⟨word, st, true, t.color, s1.cursor⟩]
    let cur2 : Point := ⟨s1.cursor.x + width, s1.cursor.y⟩
    if lastWord then
      (⟨cur2, styles2, ops2⟩, false)
    else
      (⟨⟨cur2.x + space_width, cur2.y⟩, styles2,
        ops2 ++ [⟨" ", st, false, t.color, cur2⟩]⟩, false)

/-- The inner word loop of `Text.render` over the words of one line;
`OverflowError` propagates immediately. -/
def renderWords (t : Text) (bounds : Rectangle)
    (line_height indent space_width space_height : ℚ) :
    List String → LayoutState → LayoutState × Bool
  | [], s => (s, false)
  | [w], s => renderWord t bounds line_height indent space_width space_height w true s
  | w :: w2 :: ws, s =>
    match renderWord t bounds line_height indent space_width space_height w false s with
    | (s1, true) => (s1, true)
    | (s1, false) =>
      renderWords t bounds line_height indent space_width space_height (w2 :: ws) s1

/-- The outer line loop of `Text.render`: lay out each line's words and call
`newline(0)` after every line except the last; `OverflowError` propagates
immediately. -/
def renderLines (t : Text) (bounds : Rectangle)
    (line_height indent space_width space_height : ℚ) :
    List String → LayoutState → LayoutState × Bool
  | [], s => (s, false)
  | [l], s => renderWords t bounds line_height indent space_width space_height (splitWords l) s
  | l :: l2 :: ls, s =>
    match renderWords t bounds line_height indent space_width space_height (splitWords l) s with
    | (s1, true) => (s1, true)
    | (s1, false) =>
      renderLines t bounds line_height indent space_width space_height (l2 :: ls)
        (newline bounds space_height line_height 0 s1)

/-- Models `Text.render`: measure the space glyph with the font's style
state at entry, then run the line/word loops.  The returned flag is `true`
exactly when the Python code raises `OverflowError`; the returned state is
the state at the raise point (the Python cursor is mutated in place, so its
partial updates survive the exception). -/
def Text.render (t : Text) (bounds : Rectangle) (line_height indent : ℚ)
    (s : LayoutState) : LayoutState × Bool :=
  let sm := t.font.sizeFn (styleOf s.styles t.font.id) " "
  renderLines t bounds line_height indent sm.1 sm.2 (splitLines t.text) s

/-- Models `textbox.TextBox`: a bounding box for multiline text. -/
structure TextBox where
  width : ℚ
  height : ℚ := 0
  line_height : ℚ := 1
  indent : ℚ := 0
  texts : List Text := []
  font : Font

/-- Models `TextBox.__bool__`: a box is truthy exactly when it holds at
least one segment. -/
def TextBox.toBool (box : TextBox) : Bool :=
  !box.texts.isEmpty

/-- Models `TextBox.add`: append a segment built from the given string, the
box's default font, and default styling. -/
def TextBox.add (box : TextBox) (text : String) : TextBox :=
  { box with texts := box.texts ++ [{ text := text, font := box.font }] }

/-- The `for text in self.texts` loop of `TextBox.render`, threading the
cursor and font state through `Text.render` segment by segment; an
`OverflowError` (flag `true`) aborts the loop at once. -/
def renderTexts (bounds : Rectangle) (line_height indent : ℚ) :
    List Text → LayoutState → LayoutState × Bool
  | [], s => (s, false)
  | t :: ts, s =>
    match t.render bounds line_height indent s with
    | (s1, true) => (s1, true)
    | (s1, false) => renderTexts bounds line_height indent ts s1

/-- Models `TextBox.render`.  The screen starts with no draw operation for
this call; `styles0` is the style state the shared font handles carry when
the call begins.  Returns `none` exactly where the Python code raises an
uncaught `IndexError`: `height == 0` with an empty segment list makes
`self.texts[-1]` fail.  Otherwise returns the bottom-right point the Python
function returns, together with the final layout state (its ops are every
draw issued by this call). -/
def TextBox.render (box : TextBox) (origin : Point)
    (styles0 : List (ℕ × Style)) : Option (Point × LayoutState) :=
  let bounds : Rectangle := ⟨origin, box.width, box.height⟩
  let s := (renderTexts bounds box.line_height box.indent box.texts
    ⟨origin, styles0, []⟩).1
  if box.height = 0 then
    match box.texts.getLast? with
    | none => none
    | some t =>
      some (⟨bounds.bottom_right.x,
        s.cursor.y + (t.font.sizeFn (styleOf s.styles t.font.id) " ").2⟩, s)
  else
    some (bounds.bottom_right, s)

/-! ### Concrete instances used as witnesses and counterexamples -/

/-- A font with style-independent metrics: every character is 10 units
wide and every glyph 10 units tall. -/
def exFont : Font := ⟨0, fun _ w => (10 * (w.length : ℚ), 10)⟩

/-- A font whose width metric depends on the bold style flag: 100 units per
character when bold, 10 otherwise; 10 units tall. -/
def boldFont : Font :=
  ⟨1, fun st w => ((if st.bold then 100 else 10) * (w.length : ℚ), 10)⟩

/-- A box one line-advance tall (`height = 1 * 10 * 1`) whose content needs
two lines. -/
def exactFitBox : TextBox :=
  { width := 100, height := 10, line_height := 1, indent := 0,
    texts := [{ text := "a\nb", font := exFont }], font := exFont }

/-- An unbounded-height box with a single one-word segment. -/
def unboundedBox : TextBox :=
  { width := 100, height := 0, line_height := 1, indent := 0,
    texts := [{ text := "a", font := exFont }], font := exFont }

/-- A narrow unbounded box holding one bold segment on the style-sensitive
font, with a non-zero wrap indent. -/
def styledBox : TextBox :=
  { width := 50, height := 0, line_height := 1, indent := 7,
    texts := [{ text := "a", font := boldFont, bold := true }],
    font := boldFont }

/-- A narrow unbounded box holding one bold segment on the style-sensitive
font, with zero indent. -/
def pureBox : TextBox :=
  { width := 50, height := 0, line_height := 1, indent := 0,
    texts := [{ text := "a", font := boldFont, bold := true }],
    font := boldFont }

/-- A box holding no segment, with the unbounded-height sentinel. -/
def emptyBox : TextBox :=
  { width := 100, height := 0, texts := [], font := exFont }

/-- A box holding no segment, with a positive height. -/
def emptyTallBox : TextBox :=
  { width := 100, height := 5, texts := [], font := exFont }

/-- A wide unbounded box holding two one-word segments. -/
def twoSegBox : TextBox :=
  { width := 1000, height := 0, line_height := 1, indent := 0,
    texts := [{ text := "a", font := exFont }, { text := "b", font := exFont }],
    font := exFont }

/-- An unbounded box with indent 20 holding one word of width 90: wider than
`width - indent = 80` but narrower than `width = 100`. -/
def wideBox : TextBox :=
  { width := 100, height := 0, line_height := 1, indent := 20,
    texts := [{ text := "abcdefghi", font := exFont }], font := exFont }

/-! ### Helper lemmas -/

/-- The code's wrap test `width > bounds.width - (cursor.x - bounds.left)`
holds exactly when the cumulative width `cursor.x - bounds.left + width`
strictly exceeds `bounds.width`. -/
lemma wrapsQ_iff (bounds : Rectangle) (x w : ℚ) :
    wrapsQ bounds x w = true ↔ x - bounds.left + w > bounds.width := by
  simp only [wrapsQ, decide_eq_true_eq, gt_iff_lt]
  constructor <;> intro h <;> linarith

/-- When `renderWord` does not raise `OverflowError`, its op list is the
incoming op list, then the word drawn at the (possibly wrapped) cursor, then
possibly a trailing space. -/
lemma renderWord_ops (t : Text) (bounds : Rectangle)
    (lh ind sw sh : ℚ) (word : String) (lastWord : Bool) (s : LayoutState)
    (h : (renderWord t bounds lh ind sw sh word lastWord s).2 = false) :
    ∃ tail, (renderWord t bounds lh ind sw sh word lastWord s).1.ops =
      s.ops ++ ⟨word, ⟨t.bold, t.italic, t.underline⟩, true, t.color,
        (if wrapsQ bounds s.cursor.x
            ((t.font.sizeFn (styleOf s.styles t.font.id) word).1) = true
         then newline bounds sh lh ind s else s).cursor⟩ :: tail := by
  by_cases hw : wrapsQ bounds s.cursor.x
      ((t.font.sizeFn (styleOf s.styles t.font.id) word).1) = true <;>
    by_cases hl : lastWord = true
  all_goals
    simp only [renderWord, hw, hl, if_true, if_false, Bool.false_eq_true] at h ⊢
  all_goals split_ifs at h ⊢
  all_goals try exact ⟨_, rfl⟩
  all_goals try exact ⟨_, List.append_assoc _ _ _⟩

/-- When `renderWord` does not raise, the font handle's style state after
the call is the segment's style (set via `set_bold`/`set_italic`/
`set_underline` before the draw). -/
lemma renderWord_styles (t : Text) (bounds : Rectangle)
    (lh ind sw sh : ℚ) (word : String) (lastWord : Bool) (s : LayoutState)
    (h : (renderWord t bounds lh ind sw sh word lastWord s).2 = false) :
    styleOf (renderWord t bounds lh ind sw sh word lastWord s).1.styles t.font.id =
      ⟨t.bold, t.italic, t.underline⟩ := by
  by_cases hw : wrapsQ bounds s.cursor.x
      ((t.font.sizeFn (styleOf s.styles t.font.id) word).1) = true <;>
    by_cases hl : lastWord = true
  all_goals
    simp only [renderWord, hw, hl, if_true, if_false, Bool.false_eq_true] at h ⊢
  all_goals split_ifs at h ⊢
  all_goals simp_all [newline, setStyle, styleOf]

/-- `renderWord` can only raise `OverflowError` when the bounding box has a
positive height (the code guards the check with `bounds.height > 0`). -/
lemma renderWord_overflow_pos (t : Text) (bounds : Rectangle)
    (lh ind sw sh : ℚ) (word : String) (lastWord : Bool) (s : LayoutState)
    (h : (renderWord t bounds lh ind sw sh word lastWord s).2 = true) :
    0 < bounds.height := by
  by_cases hw : wrapsQ bounds s.cursor.x
      ((t.font.sizeFn (styleOf s.styles t.font.id) word).1) = true <;>
    by_cases hl : lastWord = true
  all_goals
    simp only [renderWord, hw, hl, if_true, if_false, Bool.false_eq_true] at h
  all_goals split_ifs at h with hg
  all_goals exact hg.1

/-- `renderWords` can only raise `OverflowError` when the bounding box has a
positive height. -/
lemma renderWords_overflow_pos (t : Text) (bounds : Rectangle)
    (lh ind sw sh : ℚ) :
    ∀ (ws : List String) (s : LayoutState),
      (renderWords t bounds lh ind sw sh ws s).2 = true → 0 < bounds.height
  | [], s, h => by simp [renderWords] at h
  | [w], s, h => renderWord_overflow_pos t bounds lh ind sw sh w true s h
  | w :: w2 :: ws, s, h => by
    rcases hrw : renderWord t bounds lh ind sw sh w false s with ⟨s1, fl⟩
    simp only [renderWords, hrw] at h
    cases fl
    · exact renderWords_overflow_pos t bounds lh ind sw sh (w2 :: ws) s1 h
    · exact renderWord_overflow_pos t bounds lh ind sw sh w false s (by rw [hrw])

/-- `renderLines` can only raise `OverflowError` when the bounding box has a
positive height. -/
lemma renderLines_overflow_pos (t : Text) (bounds : Rectangle)
    (lh ind sw sh : ℚ) :
    ∀ (ls : List String) (s : LayoutState),
      (renderLines t bounds lh ind sw sh ls s).2 = true → 0 < bounds.height
  | [], s, h => by simp [renderLines] at h
  | [l], s, h =>
    renderWords_overflow_pos t bounds lh ind sw sh (splitWords l) s
      (by simpa [renderLines] using h)
  | l :: l2 :: ls, s, h => by
    rcases hrw : renderWords t bounds lh ind sw sh (splitWords l) s with ⟨s1, fl⟩
    simp only [renderLines, hrw] at h
    cases fl
    · exact renderLines_overflow_pos t bounds lh ind sw sh (l2 :: ls)
        (newline bounds sh lh 0 s1) h
    · exact renderWords_overflow_pos t bounds lh ind sw sh (splitWords l) s
        (by rw [hrw])

/-- `Text.render` can only raise `OverflowError` when the bounding box has a
positive height. -/
lemma textRender_overflow_pos (t : Text) (bounds : Rectangle)
    (lh ind : ℚ) (s : LayoutState)
    (h : (t.render bounds lh ind s).2 = true) : 0 < bounds.height :=
  renderLines_overflow_pos t bounds lh ind
    (t.font.sizeFn (styleOf s.styles t.font.id) " ").1
    (t.font.sizeFn (styleOf s.styles t.font.id) " ").2
    (splitLines t.text) s (by simpa [Text.render] using h)

/-- The segment loop of `TextBox.render` can only see `OverflowError` when
the bounding box has a positive height. -/
lemma renderTexts_overflow_pos (bounds : Rectangle) (lh ind : ℚ) :
    ∀ (ts : List Text) (s : LayoutState),
      (renderTexts bounds lh ind ts s).2 = true → 0 < bounds.height
  | [], s, h => by simp [renderTexts] at h
  | t :: ts, s, h => by
    rcases hrt : t.render bounds lh ind s with ⟨s1, fl⟩
    simp only [renderTexts, hrt] at h
    cases fl
    · exact renderTexts_overflow_pos bounds lh ind ts s1 h
    · exact textRender_overflow_pos t bounds lh ind s (by rw [hrt])

/-! ### Claims -/

/-- C1.  For every word laid out by `Text.render`'s word loop, a wrap is
performed before the word is drawn exactly when
`cursor.x - bounds.left + word_width > bounds.width` (strict); a word whose
cumulative width equals `bounds.width` exactly is not wrapped; and when no
overflow is raised the word is drawn at the wrapped position
`(bounds.left + indent, cursor.y + space_height * line_height)` if that
condition holds and at the unchanged cursor otherwise. -/
theorem text_wrap_exactly_when (bounds : Rectangle) :
    (∀ x w : ℚ, wrapsQ bounds x w = true ↔ x - bounds.left + w > bounds.width) ∧
    (∀ x w : ℚ, x - bounds.left + w = bounds.width → wrapsQ bounds x w = false) ∧
    (∀ (t : Text) (lh ind sw sh : ℚ) (word : String) (lastWord : Bool)
        (s : LayoutState),
      (renderWord t bounds lh ind sw sh word lastWord s).2 = false →
      ∃ tail, (renderWord t bounds lh ind sw sh word lastWord s).1.ops =
        s.ops ++ ⟨word, ⟨t.bold, t.italic, t.underline⟩, true, t.color,
          if s.cursor.x - bounds.left +
              (t.font.sizeFn (styleOf s.styles t.font.id) word).1 > bounds.width
          then ⟨bounds.left + ind, s.cursor.y + sh * lh⟩
          else s.cursor⟩ :: tail) := by
  refine ⟨fun x w => wrapsQ_iff bounds x w, ?_, ?_⟩
  · intro x w h
    rcases hb : wrapsQ bounds x w with _ | _
    · rfl
    · exact absurd ((wrapsQ_iff bounds x w).1 hb) (by rw [h]; exact lt_irrefl _)
  · intro t lh ind sw sh word lastWord s h
    obtain ⟨tail, htail⟩ := renderWord_ops t bounds lh ind sw sh word lastWord s h
    refine ⟨tail, htail.trans ?_⟩
    by_cases hw : wrapsQ bounds s.cursor.x
        ((t.font.sizeFn (styleOf s.styles t.font.id) word).1) = true
    · rw [if_pos hw, if_pos ((wrapsQ_iff bounds _ _).1 hw)]
      rfl
    · rw [if_neg hw, if_neg (fun hc => hw ((wrapsQ_iff bounds _ _).2 hc))]

/-- Witness for C1 at the spec's boundary example: a word of width 60 whose
cumulative width reaches exactly 200 on a 200-wide box is not wrapped. -/
theorem text_wrap_exactly_when_witness :
    wrapsQ ⟨⟨0, 0⟩, 200, 0⟩ 140 60 = false :=
  (text_wrap_exactly_when ⟨⟨0, 0⟩, 200, 0⟩).2.1 140 60 (by
    norm_num [Rectangle.left])

/-- C2.  If a segment's layout raises `OverflowError`, the remaining
segments of the box are not laid out, and `TextBox.render` swallows the
error and returns the bounds' nominal bottom-right corner
`origin + (width, height)` instead of propagating a failure. -/
theorem overflow_silent_truncation :
    (∀ (bounds : Rectangle) (lh ind : ℚ) (a : Text) (rest : List Text)
        (s s1 : LayoutState),
      a.render bounds lh ind s = (s1, true) →
      renderTexts bounds lh ind (a :: rest) s = (s1, true)) ∧
    (∀ (box : TextBox) (origin : Point) (styles0 : List (ℕ × Style)),
      (renderTexts ⟨origin, box.width, box.height⟩ box.line_height box.indent
        box.texts ⟨origin, styles0, []⟩).2 = true →
      box.render origin styles0 =
        some (⟨origin.x + box.width, origin.y + box.height⟩,
          (renderTexts ⟨origin, box.width, box.height⟩ box.line_height
            box.indent box.texts ⟨origin, styles0, []⟩).1)) := by
  constructor
  · intro bounds lh ind a rest s s1 h
    simp [renderTexts, h]
  · intro box origin styles0 h
    have hpos : (0 : ℚ) < box.height :=
      renderTexts_overflow_pos ⟨origin, box.width, box.height⟩ box.line_height
        box.indent box.texts ⟨origin, styles0, []⟩ h
    simp only [TextBox.render]
    rw [if_neg (ne_of_gt hpos)]
    rfl

/-- Witness for C2: a box one line tall whose two-line content overflows at
the very first word returns the nominal bottom-right corner. -/
theorem overflow_silent_truncation_witness :
    TextBox.render exactFitBox ⟨0, 0⟩ [] =
      some (⟨(⟨0, 0⟩ : Point).x + exactFitBox.width,
          (⟨0, 0⟩ : Point).y + exactFitBox.height⟩,
        (renderTexts ⟨⟨0, 0⟩, exactFitBox.width, exactFitBox.height⟩
          exactFitBox.line_height exactFitBox.indent exactFitBox.texts
          ⟨⟨0, 0⟩, [], []⟩).1) :=
  overflow_silent_truncation.2 exactFitBox ⟨0, 0⟩ [] (by
    norm_num [exactFitBox, exFont, renderTexts, Text.render, renderLines,
      renderWords, renderWord, newline, wrapsQ, styleOf, setStyle,
      Rectangle.bottom, Rectangle.left, Rectangle.bottom_right, Style.plain,
      show splitLines "a\nb" = ["a", "b"] from rfl,
      show splitWords "a" = ["a"] from rfl,
      show splitWords "b" = ["b"] from rfl,
      show ("a" : String).length = 1 from rfl,
      show (" " : String).length = 1 from rfl])

/-- C3.  A wrap-break positions the cursor at `bounds.left + indent` (and
the wrapped word is drawn there), while the explicit newline issued between
two lines of a segment restarts the next line from `bounds.left` with no
indent, for every segment, indent value and break. -/
theorem indent_asymmetry :
    (∀ (bounds : Rectangle) (sh lh off : ℚ) (s : LayoutState),
      (newline bounds sh lh off s).cursor.x = bounds.left + off ∧
      (newline bounds sh lh off s).cursor.y = s.cursor.y + sh * lh) ∧
    (∀ (t : Text) (bounds : Rectangle) (lh ind sw sh : ℚ) (word : String)
        (lastWord : Bool) (s : LayoutState),
      wrapsQ bounds s.cursor.x
        ((t.font.sizeFn (styleOf s.styles t.font.id) word).1) = true →
      (renderWord t bounds lh ind sw sh word lastWord s).2 = false →
      ∃ tail, (renderWord t bounds lh ind sw sh word lastWord s).1.ops =
        s.ops ++ ⟨word, ⟨t.bold, t.italic, t.underline⟩, true, t.color,
          ⟨bounds.left + ind, s.cursor.y + sh * lh⟩⟩ :: tail) ∧
    (∀ (t : Text) (bounds : Rectangle) (lh ind sw sh : ℚ) (l l2 : String)
        (ls : List String) (s s1 : LayoutState),
      renderWords t bounds lh ind sw sh (splitWords l) s = (s1, false) →
      renderLines t bounds lh ind sw sh (l :: l2 :: ls) s =
        renderLines t bounds lh ind sw sh (l2 :: ls)
          (newline bounds sh lh 0 s1) ∧
      (newline bounds sh lh 0 s1).cursor.x = bounds.left) := by
  refine ⟨fun bounds sh lh off s => ⟨rfl, rfl⟩, ?_, ?_⟩
  · intro t bounds lh ind sw sh word lastWord s hw h
    obtain ⟨tail, ht⟩ := renderWord_ops t bounds lh ind sw sh word lastWord s h
    rw [if_pos hw] at ht
    exact ⟨tail, ht⟩
  · intro t bounds lh ind sw sh l l2 ls s s1 h
    constructor
    · simp only [renderLines, h]
    · simp [newline]

/-- Witness for C3: after the one-word line `"a"` of a two-line segment,
the explicit newline restarts the next line at `bounds.left`. -/
theorem indent_asymmetry_witness :
    renderLines { text := "a", font := exFont } ⟨⟨0, 0⟩, 100, 0⟩ 1 7 10 10
        ["a", "b"] ⟨⟨0, 0⟩, [], []⟩ =
      renderLines { text := "a", font := exFont } ⟨⟨0, 0⟩, 100, 0⟩ 1 7 10 10
        ["b"] (newline ⟨⟨0, 0⟩, 100, 0⟩ 10 1 0
          ⟨⟨10, 0⟩, [(0, ⟨false, false, false⟩)],
            [⟨"a", ⟨false, false, false⟩, true, black, ⟨0, 0⟩⟩]⟩) ∧
    (newline ⟨⟨0, 0⟩, 100, 0⟩ 10 1 0
      ⟨⟨10, 0⟩, [(0, ⟨false, false, false⟩)],
        [⟨"a", ⟨false, false, false⟩, true, black, ⟨0, 0⟩⟩]⟩).cursor.x =
      (⟨⟨0, 0⟩, 100, 0⟩ : Rectangle).left :=
  indent_asymmetry.2.2 { text := "a", font := exFont } ⟨⟨0, 0⟩, 100, 0⟩
    1 7 10 10 "a" "b" [] ⟨⟨0, 0⟩, [], []⟩ _ (by
      norm_num [exFont, renderWords, renderWord, newline, wrapsQ, styleOf,
        setStyle, Rectangle.bottom, Rectangle.left, Rectangle.bottom_right,
        Style.plain, show splitWords "a" = ["a"] from rfl,
        show ("a" : String).length = 1 from rfl])

/-- C4 counterexample: a box exactly one line-advance tall
(`height = 1 * space_height * line_height = 10`) with content needing two
lines draws no word at all — the op list of the render is empty — instead
of the one line the claim requires. -/
theorem exact_fit_box_draws_nothing :
    TextBox.render exactFitBox ⟨0, 0⟩ [] =
      some (⟨100, 10⟩, ⟨⟨0, 0⟩, [], []⟩) := by
  norm_num [exactFitBox, exFont, TextBox.render, renderTexts, Text.render,
    renderLines, renderWords, renderWord, newline, wrapsQ, styleOf, setStyle,
    Rectangle.bottom, Rectangle.left, Rectangle.bottom_right, Style.plain,
    show splitLines "a\nb" = ["a", "b"] from rfl,
    show splitWords "a" = ["a"] from rfl,
    show ("a" : String).length = 1 from rfl,
    show (" " : String).length = 1 from rfl]

/-- C4 (amended).  `renderWord` raises `OverflowError` exactly when
`bounds.height > 0` and the post-wrap cursor satisfies
`cursor.y + space_height >= bounds.bottom`, and in that case nothing is
drawn for the word (the op list is unchanged). -/
theorem overflow_condition_exact (t : Text) (bounds : Rectangle)
    (lh ind sw sh : ℚ) (word : String) (lastWord : Bool) (s : LayoutState) :
    ((renderWord t bounds lh ind sw sh word lastWord s).2 = true ↔
      (0 < bounds.height ∧
        (if wrapsQ bounds s.cursor.x
            ((t.font.sizeFn (styleOf s.styles t.font.id) word).1) = true
         then newline bounds sh lh ind s else s).cursor.y + sh ≥
          bounds.bottom)) ∧
    ((renderWord t bounds lh ind sw sh word lastWord s).2 = true →
      (renderWord t bounds lh ind sw sh word lastWord s).1.ops = s.ops) := by
  by_cases hw : wrapsQ bounds s.cursor.x
      ((t.font.sizeFn (styleOf s.styles t.font.id) word).1) = true <;>
    by_cases hl : lastWord = true
  all_goals
    simp only [renderWord, hw, hl, if_true, if_false, Bool.false_eq_true]
  all_goals split_ifs with hg
  all_goals simp_all [newline]

/-- Witness for C4: on the one-line-tall box the overflow raised at the
first word leaves the op list empty. -/
theorem overflow_condition_exact_witness :
    (renderWord { text := "a\nb", font := exFont } ⟨⟨0, 0⟩, 100, 10⟩ 1 0 10 10
      "a" true ⟨⟨0, 0⟩, [], []⟩).1.ops =
      (⟨⟨0, 0⟩, [], []⟩ : LayoutState).ops :=
  (overflow_condition_exact { text := "a\nb", font := exFont }
    ⟨⟨0, 0⟩, 100, 10⟩ 1 0 10 10 "a" true ⟨⟨0, 0⟩, [], []⟩).2 (by
      norm_num [exFont, renderWord, newline, wrapsQ, styleOf, setStyle,
        Rectangle.bottom, Rectangle.left, Rectangle.bottom_right, Style.plain,
        show ("a" : String).length = 1 from rfl])

/-- C5.  For a box with `height == 0` and at least one segment, the render
returns `x = origin.x + width` and `y` equal to the final cursor's `y` plus
the space-glyph height of the last segment's font (measured at that font's
final style state). -/
theorem unbounded_height_bottom_right :
    ∀ (box : TextBox) (origin : Point) (styles0 : List (ℕ × Style)),
      box.height = 0 → ∀ hne : box.texts ≠ [],
      box.render origin styles0 =
        some (⟨origin.x + box.width,
            (renderTexts ⟨origin, box.width, box.height⟩ box.line_height
              box.indent box.texts ⟨origin, styles0, []⟩).1.cursor.y +
            ((box.texts.getLast hne).font.sizeFn
              (styleOf (renderTexts ⟨origin, box.width, box.height⟩
                  box.line_height box.indent box.texts
                  ⟨origin, styles0, []⟩).1.styles
                (box.texts.getLast hne).font.id) " ").2⟩,
          (renderTexts ⟨origin, box.width, box.height⟩ box.line_height
            box.indent box.texts ⟨origin, styles0, []⟩).1) := by
  intro box origin styles0 h0 hne
  simp only [TextBox.render, h0, if_pos]
  rw [List.getLast?_eq_getLast _ hne]
  rfl

/-- Witness for C5: the single-segment unbounded box returns
`y = 0 + 10 = 10`, one space-glyph height below its final cursor. -/
theorem unbounded_height_bottom_right_witness :
    TextBox.render unboundedBox ⟨0, 0⟩ [] =
      some (⟨(⟨0, 0⟩ : Point).x + unboundedBox.width,
          (renderTexts ⟨⟨0, 0⟩, unboundedBox.width, unboundedBox.height⟩
            unboundedBox.line_height unboundedBox.indent unboundedBox.texts
            ⟨⟨0, 0⟩, [], []⟩).1.cursor.y +
          ((unboundedBox.texts.getLast (by simp [unboundedBox])).font.sizeFn
            (styleOf (renderTexts ⟨⟨0, 0⟩, unboundedBox.width,
                unboundedBox.height⟩ unboundedBox.line_height
                unboundedBox.indent unboundedBox.texts
                ⟨⟨0, 0⟩, [], []⟩).1.styles
              (unboundedBox.texts.getLast
                (by simp [unboundedBox])).font.id) " ").2⟩,
        (renderTexts ⟨⟨0, 0⟩, unboundedBox.width, unboundedBox.height⟩
          unboundedBox.line_height unboundedBox.indent unboundedBox.texts
          ⟨⟨0, 0⟩, [], []⟩).1) :=
  unbounded_height_bottom_right unboundedBox ⟨0, 0⟩ [] rfl
    (by simp [unboundedBox])

/-- C6 counterexample: in the narrow `styledBox`, the bold segment's word
`"a"` measures 100 under its own (bold) style — wide enough that the claim
mandates a wrap — yet the code measures it with the font's stale plain
style (width 10) before `set_bold` runs, so it is drawn un-wrapped at the
origin. -/
theorem style_measured_late_cex :
    (boldFont.sizeFn ⟨true, false, false⟩ "a").1 = 100 ∧
    wrapsQ ⟨⟨0, 0⟩, 50, 0⟩ 0 ((boldFont.sizeFn ⟨true, false, false⟩ "a").1) =
      true ∧
    TextBox.render styledBox ⟨0, 0⟩ [] =
      some (⟨50, 10⟩, ⟨⟨10, 0⟩, [(1, ⟨true, false, false⟩)],
        [⟨"a", ⟨true, false, false⟩, true, black, ⟨0, 0⟩⟩]⟩) := by
  refine ⟨?_, ?_, ?_⟩
  · norm_num [boldFont, show ("a" : String).length = 1 from rfl]
  · norm_num [boldFont, wrapsQ, Rectangle.left,
      show ("a" : String).length = 1 from rfl]
  · norm_num [styledBox, boldFont, TextBox.render, renderTexts, Text.render,
      renderLines, renderWords, renderWord, newline, wrapsQ, styleOf,
      setStyle, Rectangle.bottom, Rectangle.left, Rectangle.bottom_right,
      Style.plain, show splitLines "a" = ["a"] from rfl,
      show splitWords "a" = ["a"] from rfl,
      show ("a" : String).length = 1 from rfl,
      show (" " : String).length = 1 from rfl]

/-- C6 (amended).  For every word, the width used for the wrap decision is
measured with the font's style state as it stands *before* the word's
`set_bold`/`set_italic`/`set_underline` calls (i.e. the style left by the
previous draw, or the previous segment for a segment's first word); the
segment's style is applied only between measurement and drawing, so after a
drawn word the font handle carries the segment's style. -/
theorem style_set_after_measure (t : Text) (bounds : Rectangle)
    (lh ind sw sh : ℚ) (word : String) (lastWord : Bool) (s : LayoutState)
    (h : (renderWord t bounds lh ind sw sh word lastWord s).2 = false) :
    styleOf (renderWord t bounds lh ind sw sh word lastWord s).1.styles
      t.font.id = ⟨t.bold, t.italic, t.underline⟩ ∧
    ∃ tail, (renderWord t bounds lh ind sw sh word lastWord s).1.ops =
      s.ops ++ ⟨word, ⟨t.bold, t.italic, t.underline⟩, true, t.color,
        (if wrapsQ bounds s.cursor.x
            ((t.font.sizeFn (styleOf s.styles t.font.id) word).1) = true
         then newline bounds sh lh ind s else s).cursor⟩ :: tail :=
  ⟨renderWord_styles t bounds lh ind sw sh word lastWord s h,
   renderWord_ops t bounds lh ind sw sh word lastWord s h⟩

/-- Witness for C6's amended statement on the bold segment of `styledBox`:
measured plain (no wrap), drawn bold, leaving the font bold. -/
theorem style_set_after_measure_witness :
    styleOf (renderWord { text := "a", font := boldFont, bold := true }
      ⟨⟨0, 0⟩, 50, 0⟩ 1 7 10 10 "a" true ⟨⟨0, 0⟩, [], []⟩).1.styles
      ({ text := "a", font := boldFont, bold := true } : Text).font.id =
      ⟨true, false, false⟩ ∧
    ∃ tail, (renderWord { text := "a", font := boldFont, bold := true }
      ⟨⟨0, 0⟩, 50, 0⟩ 1 7 10 10 "a" true ⟨⟨0, 0⟩, [], []⟩).1.ops =
      (⟨⟨0, 0⟩, [], []⟩ : LayoutState).ops ++
        ⟨"a", ⟨true, false, false⟩, true, black,
          (if wrapsQ ⟨⟨0, 0⟩, 50, 0⟩ (⟨⟨0, 0⟩, [], []⟩ : LayoutState).cursor.x
              ((boldFont.sizeFn (styleOf (⟨⟨0, 0⟩, [], []⟩ : LayoutState).styles
                boldFont.id) "a").1) = true
           then newline ⟨⟨0, 0⟩, 50, 0⟩ 10 1 7 ⟨⟨0, 0⟩, [], []⟩
           else ⟨⟨0, 0⟩, [], []⟩).cursor⟩ :: tail :=
  style_set_after_measure { text := "a", font := boldFont, bold := true }
    ⟨⟨0, 0⟩, 50, 0⟩ 1 7 10 10 "a" true ⟨⟨0, 0⟩, [], []⟩ (by
      norm_num [boldFont, renderWord, newline, wrapsQ, styleOf, setStyle,
        Rectangle.bottom, Rectangle.left, Rectangle.bottom_right, Style.plain,
        show ("a" : String).length = 1 from rfl])

/-- C7 counterexample: the empty box is falsy, but rendering it with
`height == 0` hits `self.texts[-1]` on an empty list (an uncaught
`IndexError`, modelled as `none`) instead of returning any point. -/
theorem empty_box_render_fails :
    TextBox.toBool emptyBox = false ∧
    TextBox.render emptyBox ⟨0, 0⟩ [] = none := by
  constructor
  · rfl
  · norm_num [emptyBox, TextBox.render, renderTexts]

/-- C7 (amended).  A box with no segments is falsy; rendering it draws
nothing and returns the nominal bottom-right `origin + (width, height)`
when `height != 0`, but raises an uncaught `IndexError` (no return at all)
when `height == 0`. -/
theorem empty_box_behaviour (box : TextBox) (origin : Point)
    (styles0 : List (ℕ × Style)) (hts : box.texts = []) :
    TextBox.toBool box = false ∧
    (box.height ≠ 0 → box.render origin styles0 =
      some (⟨origin.x + box.width, origin.y + box.height⟩,
        ⟨origin, styles0, []⟩)) ∧
    (box.height = 0 → box.render origin styles0 = none) := by
  refine ⟨by simp [TextBox.toBool, hts], ?_, ?_⟩
  · intro h0
    simp only [TextBox.render, hts]
    rw [if_neg h0]
    rfl
  · intro h0
    simp only [TextBox.render, hts]
    rw [if_pos h0]
    rfl

/-- Witness for C7's amended statement: the empty box with positive height
renders no op and returns its nominal bottom-right corner. -/
theorem empty_box_behaviour_witness :
    TextBox.render emptyTallBox ⟨0, 0⟩ [] =
      some (⟨(⟨0, 0⟩ : Point).x + emptyTallBox.width,
          (⟨0, 0⟩ : Point).y + emptyTallBox.height⟩,
        ⟨⟨0, 0⟩, [], []⟩) :=
  (empty_box_behaviour emptyTallBox ⟨0, 0⟩ [] rfl).2.1 (by
    norm_num [emptyTallBox])

/-- C8 counterexample: two one-word segments `"a"` then `"b"` on the same
line; the second word is drawn at x = 10, exactly where the first segment's
cursor ended, with no extra space width (10) in between, contradicting the
claimed "plus one space-width" placement. -/
theorem segment_join_no_space :
    TextBox.render twoSegBox ⟨0, 0⟩ [] =
      some (⟨1000, 10⟩, ⟨⟨20, 0⟩,
        [(0, ⟨false, false, false⟩), (0, ⟨false, false, false⟩)],
        [⟨"a", ⟨false, false, false⟩, true, black, ⟨0, 0⟩⟩,
         ⟨"b", ⟨false, false, false⟩, true, black, ⟨10, 0⟩⟩]⟩) ∧
    (exFont.sizeFn ⟨false, false, false⟩ " ").1 = 10 := by
  constructor
  · norm_num [twoSegBox, exFont, TextBox.render, renderTexts, Text.render,
      renderLines, renderWords, renderWord, newline, wrapsQ, styleOf,
      setStyle, Rectangle.bottom, Rectangle.left, Rectangle.bottom_right,
      Style.plain, show splitLines "a" = ["a"] from rfl,
      show splitLines "b" = ["b"] from rfl,
      show splitWords "a" = ["a"] from rfl,
      show splitWords "b" = ["b"] from rfl,
      show ("a" : String).length = 1 from rfl,
      show ("b" : String).length = 1 from rfl,
      show (" " : String).length = 1 from rfl]
  · norm_num [exFont, show (" " : String).length = 1 from rfl]

/-- C8 (amended).  The cursor returned by one segment's layout is exactly
the cursor the next segment starts from, and a segment's first word — when
it fits without wrapping and no overflow fires — is drawn exactly at that
incoming cursor position, with no space inserted between segments. -/
theorem cursor_threading_exact :
    (∀ (bounds : Rectangle) (lh ind : ℚ) (a : Text) (ts : List Text)
        (s s1 : LayoutState),
      a.render bounds lh ind s = (s1, false) →
      renderTexts bounds lh ind (a :: ts) s =
        renderTexts bounds lh ind ts s1) ∧
    (∀ (t : Text) (bounds : Rectangle) (lh ind sw sh : ℚ) (word : String)
        (lastWord : Bool) (s : LayoutState),
      wrapsQ bounds s.cursor.x
        ((t.font.sizeFn (styleOf s.styles t.font.id) word).1) = false →
      (renderWord t bounds lh ind sw sh word lastWord s).2 = false →
      ∃ tail, (renderWord t bounds lh ind sw sh word lastWord s).1.ops =
        s.ops ++ ⟨word, ⟨t.bold, t.italic, t.underline⟩, true, t.color,
          s.cursor⟩ :: tail) := by
  constructor
  · intro bounds lh ind a ts s s1 h
    simp [renderTexts, h]
  · intro t bounds lh ind sw sh word lastWord s hw h
    obtain ⟨tail, ht⟩ := renderWord_ops t bounds lh ind sw sh word lastWord s h
    rw [hw] at ht
    simp only [Bool.false_eq_true, if_false] at ht
    exact ⟨tail, ht⟩

/-- Witness for C8's amended statement: after segment `"a"` ends without
overflow, the box's segment loop continues from exactly the state `"a"`
returned. -/
theorem cursor_threading_exact_witness :
    renderTexts ⟨⟨0, 0⟩, 1000, 0⟩ 1 0
        [{ text := "a", font := exFont }, { text := "b", font := exFont }]
        ⟨⟨0, 0⟩, [], []⟩ =
      renderTexts ⟨⟨0, 0⟩, 1000, 0⟩ 1 0 [{ text := "b", font := exFont }]
        ⟨⟨10, 0⟩, [(0, ⟨false, false, false⟩)],
          [⟨"a", ⟨false, false, false⟩, true, black, ⟨0, 0⟩⟩]⟩ :=
  cursor_threading_exact.1 ⟨⟨0, 0⟩, 1000, 0⟩ 1 0
    { text := "a", font := exFont } [{ text := "b", font := exFont }]
    ⟨⟨0, 0⟩, [], []⟩ _ (by
      norm_num [exFont, Text.render, renderLines, renderWords, renderWord,
        newline, wrapsQ, styleOf, setStyle, Rectangle.bottom, Rectangle.left,
        Rectangle.bottom_right, Style.plain,
        show splitLines "a" = ["a"] from rfl,
        show splitWords "a" = ["a"] from rfl,
        show ("a" : String).length = 1 from rfl,
        show (" " : String).length = 1 from rfl])

/-- C9 counterexample: rendering `pureBox` twice in succession — the second
call starting from the font style state the first call left behind — gives
different returned points (and different draw ops), because the bold style
set by the first render survives on the shared font handle and changes the
second render's measurements. -/
theorem render_font_state_survives :
    TextBox.render pureBox ⟨0, 0⟩ [] =
      some (⟨50, 10⟩, ⟨⟨10, 0⟩, [(1, ⟨true, false, false⟩)],
        [⟨"a", ⟨true, false, false⟩, true, black, ⟨0, 0⟩⟩]⟩) ∧
    (TextBox.render pureBox ⟨0, 0⟩ [(1, ⟨true, false, false⟩)]).map
        Prod.fst = some ⟨50, 20⟩ ∧
    ((⟨50, 10⟩ : Point) ≠ ⟨50, 20⟩) := by
  refine ⟨?_, ?_, by simp⟩
  · norm_num [pureBox, boldFont, TextBox.render, renderTexts, Text.render,
      renderLines, renderWords, renderWord, newline, wrapsQ, styleOf,
      setStyle, Rectangle.bottom, Rectangle.left, Rectangle.bottom_right,
      Style.plain, show splitLines "a" = ["a"] from rfl,
      show splitWords "a" = ["a"] from rfl,
      show ("a" : String).length = 1 from rfl,
      show (" " : String).length = 1 from rfl]
  · norm_num [pureBox, boldFont, TextBox.render, renderTexts, Text.render,
      renderLines, renderWords, renderWord, newline, wrapsQ, styleOf,
      setStyle, Rectangle.bottom, Rectangle.left, Rectangle.bottom_right,
      Style.plain, show splitLines "a" = ["a"] from rfl,
      show splitWords "a" = ["a"] from rfl,
      show ("a" : String).length = 1 from rfl,
      show (" " : String).length = 1 from rfl]

/-- C9 (amended).  `TextBox.render` is a pure function of the box's width,
height, line_height, indent and segment list, the origin and the incoming
font style state: in particular it never reads the box's default font
field, so two boxes differing only there render identically. -/
theorem render_ignores_default_font (w h lh ind : ℚ) (texts : List Text)
    (f1 f2 : Font) (origin : Point) (styles0 : List (ℕ × Style)) :
    TextBox.render ⟨w, h, lh, ind, texts, f1⟩ origin styles0 =
      TextBox.render ⟨w, h, lh, ind, texts, f2⟩ origin styles0 := rfl

/-- C10 counterexample: the word `"abcdefghi"` measures 90, wider than
`width - indent = 80`, so by the claim it must be drawn at
`bounds.left + indent = 20` with the cursor ending past `right = 100`; the
code instead draws it un-wrapped at the origin with the cursor at 90. -/
theorem overwide_word_cex :
    (exFont.sizeFn ⟨false, false, false⟩ "abcdefghi").1 = 90 ∧
    wideBox.width - wideBox.indent < 90 ∧
    TextBox.render wideBox ⟨0, 0⟩ [] =
      some (⟨100, 10⟩, ⟨⟨90, 0⟩, [(0, ⟨false, false, false⟩)],
        [⟨"abcdefghi", ⟨false, false, false⟩, true, black, ⟨0, 0⟩⟩]⟩) := by
  refine ⟨?_, by norm_num [wideBox], ?_⟩
  · norm_num [exFont, show ("abcdefghi" : String).length = 9 from rfl]
  · norm_num [wideBox, exFont, TextBox.render, renderTexts, Text.render,
      renderLines, renderWords, renderWord, newline, wrapsQ, styleOf,
      setStyle, Rectangle.bottom, Rectangle.left, Rectangle.bottom_right,
      Style.plain, show splitLines "abcdefghi" = ["abcdefghi"] from rfl,
      show splitWords "abcdefghi" = ["abcdefghi"] from rfl,
      show ("abcdefghi" : String).length = 9 from rfl,
      show (" " : String).length = 1 from rfl]

/-- C10 (amended).  A word strictly wider than the whole `bounds.width`,
processed from any cursor at or right of `bounds.left` with a non-negative
indent and no overflow, triggers exactly one wrap, is drawn exactly once at
`(bounds.left + indent, cursor.y + space_height * line_height)`, is never
split, and leaves the cursor at `bounds.left + indent + width`, strictly
past `bounds.right`. -/
theorem overwide_word_amended (t : Text) (bounds : Rectangle)
    (lh ind sw sh : ℚ) (word : String) (s : LayoutState)
    (hwide : bounds.width <
      (t.font.sizeFn (styleOf s.styles t.font.id) word).1)
    (hx : bounds.left ≤ s.cursor.x) (hind : 0 ≤ ind)
    (hov : ¬(0 < bounds.height ∧
      bounds.bottom ≤ s.cursor.y + sh * lh + sh)) :
    renderWord t bounds lh ind sw sh word true s =
      (⟨⟨bounds.left + ind +
          (t.font.sizeFn (styleOf s.styles t.font.id) word).1,
          s.cursor.y + sh * lh⟩,
        setStyle s.styles t.font.id ⟨t.bold, t.italic, t.underline⟩,
        s.ops ++ [⟨word, ⟨t.bold, t.italic, t.underline⟩, true, t.color,
          ⟨bounds.left + ind, s.cursor.y + sh * lh⟩⟩]⟩, false) ∧
    bounds.right < bounds.left + ind +
      (t.font.sizeFn (styleOf s.styles t.font.id) word).1 := by
  have hw : wrapsQ bounds s.cursor.x
      ((t.font.sizeFn (styleOf s.styles t.font.id) word).1) = true := by
    rw [wrapsQ_iff]
    linarith
  constructor
  · simp only [renderWord, hw, if_true]
    split_ifs with hg
    · exact absurd hg hov
    · rfl
  · simp only [Rectangle.right, Rectangle.bottom_right, Rectangle.left]
    linarith [hwide, hind]

/-- Witness for C10's amended statement: an 11-character word of width 110
on a 100-wide box wraps once, lands at x = 20 and pushes the cursor to
130 > 100. -/
theorem overwide_word_amended_witness :
    renderWord { text := "abcdefghijk", font := exFont } ⟨⟨0, 0⟩, 100, 0⟩
        1 20 10 10 "abcdefghijk" true ⟨⟨0, 0⟩, [], []⟩ =
      (⟨⟨(⟨⟨0, 0⟩, 100, 0⟩ : Rectangle).left + 20 +
          ((exFont.sizeFn (styleOf ([] : List (ℕ × Style)) exFont.id)
            "abcdefghijk").1),
          (0 : ℚ) + 10 * 1⟩,
        setStyle [] exFont.id ⟨false, false, false⟩,
        ([] : List DrawOp) ++ [⟨"abcdefghijk", ⟨false, false, false⟩, true,
          black, ⟨(⟨⟨0, 0⟩, 100, 0⟩ : Rectangle).left + 20, (0 : ℚ) + 10 * 1⟩⟩]⟩,
        false) ∧
    (⟨⟨0, 0⟩, 100, 0⟩ : Rectangle).right <
      (⟨⟨0, 0⟩, 100, 0⟩ : Rectangle).left + 20 +
        ((exFont.sizeFn (styleOf ([] : List (ℕ × Style)) exFont.id)
          "abcdefghijk").1) :=
  overwide_word_amended { text := "abcdefghijk", font := exFont }
    ⟨⟨0, 0⟩, 100, 0⟩ 1 20 10 10 "abcdefghijk" ⟨⟨0, 0⟩, [], []⟩
    (by norm_num [exFont, Style.plain, styleOf, Rectangle.left,
      show ("abcdefghijk" : String).length = 11 from rfl])
    (by norm_num [Rectangle.left]) (by norm_num)
    (by norm_num [Rectangle.bottom, Rectangle.bottom_right])

end Notecard
